import Mathlib

/-!
EXIF directory codec: a shallow embedding of the EXIF handling in
`exo4.2.py` (functions `get_exif_data`, lines 7 to 27, and
`update_exif_data`, lines 29 to 49), together with theorems settling the
specified properties.

Python dictionaries are modelled as association lists with unique keys:
`pyGet` is `d.get(k)` / `d[k]`, `pySet` is `d[k] = v` (overwrite the
value of an existing key in place, append a new binding otherwise).
`TAGS` models the fragment of Pillow's `ExifTags.TAGS` registry that the
application's edit form touches. Image input is modelled by
`ImageInput`: `Image.open` raises on `unreadable` input, `_getexif()`
raises on `corrupt` input and otherwise returns `None` (no EXIF
directory) or a tag-id-keyed dictionary of entries. Raising a Python
exception is modelled by `Except.error`.

The GPS degree/minute/second conversion helpers of the specification's
section 4.4 have no counterpart anywhere in the source; they are
modelled from the specification's words and marked as such.
-/

namespace Exo4

/-- A tag value as it sits in an EXIF dictionary: the Python code moves
strings, integers and rationals around without ever inspecting them. -/
inductive EValue where
  | str (s : String)
  | int (n : Int)
  | rat (num den : Int)
  deriving DecidableEq

/-- A key of the decoded EXIF dictionary: `ExifTags.TAGS.get(tag, tag)`
yields either the registered name (a string) or the raw integer tag id
itself. -/
inductive ExifKey where
  | name (s : String)
  | id (t : Nat)
  deriving DecidableEq

/-- Python `d.get(k)` / `d[k]` on a dictionary modelled as an
association list: the value at the first matching key. -/
def pyGet {κ α : Type} [DecidableEq κ] : List (κ × α) → κ → Option α
  | [], _ => none
  | (k, v) :: d, t => if k = t then some v else pyGet d t

/-- Python `d[k] = v`: overwrite the value of an existing key in place,
append a new binding otherwise. -/
def pySet {κ α : Type} [DecidableEq κ] : List (κ × α) → κ → α → List (κ × α)
  | [], k, v => [(k, v)]
  | (k0, v0) :: d, k, v =>
    if k0 = k then (k0, v) :: d else (k0, v0) :: pySet d k v

/-- The fragment of Pillow's `ExifTags.TAGS` registry (tag id, canonical
name) covering the fields the application's edit form offers. -/
def TAGS : List (Nat × String) :=
  [(271, "Make"), (272, "Model"), (274, "Orientation"), (306, "DateTime"),
   (33434, "ExposureTime"), (33437, "FNumber"), (34850, "ExposureProgram"),
   (34855, "ISOSpeedRatings")]

/-- A successfully parsed PIL image: opaque payload bytes plus the
result of `_getexif()` (`none` when the image carries no EXIF
directory). -/
structure PILImage where
  bytes : List Nat
  exif : Option (List (Nat × EValue))
  deriving DecidableEq

/-- Input handed to the codec. `Image.open` raises on `unreadable`
input; `_getexif()` raises on `corrupt` input. -/
inductive ImageInput where
  | unreadable (msg : String)
  | corrupt (bytes : List Nat) (msg : String)
  | wellFormed (img : PILImage)
  deriving DecidableEq

/-- Result of a successful `Image.open`: either an image whose
`_getexif()` call will raise, or a well-formed image. -/
inductive Opened where
  | raising (bytes : List Nat) (msg : String)
  | ok (img : PILImage)
  deriving DecidableEq

/-- Model of `Image.open(image)`: raises (as `Except.error`) on
unreadable input. -/
def imageOpen : ImageInput → Except String Opened
  | .unreadable m => .error m
  | .corrupt b m => .ok (.raising b m)
  | .wellFormed i => .ok (.ok i)

/-- Model of `img._getexif()`: raises on a corrupt directory, otherwise
returns `None` or the tag-id-keyed dictionary of entries. -/
def getexif : Opened → Except String (Option (List (Nat × EValue)))
  | .raising _ m => .error m
  | .ok i => .ok i.exif

/-- The payload bytes of an opened image. -/
def openedBytes : Opened → List Nat
  | .raising b _ => b
  | .ok i => i.bytes

/-- Line 23 of the source: `ExifTags.TAGS.get(tag, tag)` — the
registered name when the tag id is known, the raw integer id itself
otherwise. -/
def tagKey (tags : List (Nat × String)) (t : Nat) : ExifKey :=
  match pyGet tags t with
  | some n => ExifKey.name n
  | none => ExifKey.id t

/-- Lines 22 to 24 of the source:
`for tag, value in exif.items(): exif_data[tag_name] = value`. -/
def exifFold (tags : List (Nat × String)) (es : List (Nat × EValue)) :
    List (ExifKey × EValue) :=
  es.foldl (fun d p => pySet d (tagKey tags p.1) p.2) []

/-- The body of the `try` block of `get_exif_data` (lines 19 to 20), as
an exception-propagating computation. -/
def getExifAttempt (input : ImageInput) :
    Except String (Option (List (Nat × EValue))) :=
  match imageOpen input with
  | .error m => .error m
  | .ok img => getexif img

/-- `get_exif_data` (lines 7 to 27), over an arbitrary registry: any
exception from the `try` block is caught (the code shows `st.error` and
falls through), and the accumulated dictionary — still empty at that
point, since the exceptions arise before the loop — is returned. -/
def get_exif_dataW (tags : List (Nat × String)) (input : ImageInput) :
    Except String (List (ExifKey × EValue)) :=
  match getExifAttempt input with
  | .error _ => .ok []
  | .ok none => .ok []
  | .ok (some es) => .ok (exifFold tags es)

/-- `get_exif_data` with Pillow's registry. -/
def get_exif_data (input : ImageInput) :
    Except String (List (ExifKey × EValue)) :=
  get_exif_dataW TAGS input

/-- Line 44 of the source:
`[k for k, v in ExifTags.TAGS.items() if v == tag_name]`. -/
def idFor (tags : List (Nat × String)) (n : String) : List Nat :=
  (tags.filter fun p => decide (p.2 = n)).map Prod.fst

/-- Lines 43 to 47 of the source: apply each edit whose name resolves to
a registered tag id (`tag_id[0]`, the first match); an edit whose name
has no registered id is skipped because of the `if tag_id:` guard. -/
def applyEdits (tags : List (Nat × String)) (updated : List (String × EValue))
    (exif : List (Nat × EValue)) : List (Nat × EValue) :=
  updated.foldl
    (fun ex p =>
      match idFor tags p.1 with
      | [] => ex
      | k :: _ => pySet ex k p.2)
    exif

/-- The image returned by `update_exif_data`: the untouched payload
bytes and the dictionary stored into `img.info` under the exif key
(`none` when the original `_getexif()` returned `None`, line 48). -/
structure UpdatedImage where
  bytes : List Nat
  infoExif : Option (List (Nat × EValue))
  deriving DecidableEq

/-- `update_exif_data` (lines 29 to 49), over an arbitrary registry.
There is no `try` block here: exceptions raised by `Image.open` or
`_getexif` propagate to the caller. -/
def update_exif_dataW (tags : List (Nat × String)) (input : ImageInput)
    (updated : List (String × EValue)) : Except String UpdatedImage :=
  match imageOpen input with
  | .error m => .error m
  | .ok img =>
    match getexif img with
    | .error m => .error m
    | .ok (some ex) => .ok ⟨openedBytes img, some (applyEdits tags updated ex)⟩
    | .ok none => .ok ⟨openedBytes img, none⟩

/-- `update_exif_data` with Pillow's registry. -/
def update_exif_data (input : ImageInput) (updated : List (String × EValue)) :
    Except String UpdatedImage :=
  update_exif_dataW TAGS input updated

/-- GPS reference: N/S for latitude, E/W for longitude. -/
inductive GpsRef where
  | N
  | S
  | E
  | W
  deriving DecidableEq

/-- A degrees/minutes/seconds triple together with its reference. -/
structure GpsDMS where
  degrees : ℚ
  minutes : ℚ
  seconds : ℚ
  ref : GpsRef
  deriving DecidableEq

/-- Modelled from the spec: `toDecimalDegrees(degrees, minutes, seconds,
ref)` returns `±(degrees + minutes/60 + seconds/3600)`, negative when
the reference is S or W, positive otherwise (section 4.4); the helper is
absent from `src/`. -/
def toDecimalDegrees (d m s : ℚ) (r : GpsRef) : ℚ :=
  match r with
  | GpsRef.S => -(d + m / 60 + s / 3600)
  | GpsRef.W => -(d + m / 60 + s / 3600)
  | GpsRef.N => d + m / 60 + s / 3600
  | GpsRef.E => d + m / 60 + s / 3600

/-- Modelled from the spec: a seconds component is stored as a rational
whose denominator preserves at least 4 significant decimal digits
(section 4.3); rounded here to the nearest multiple of 1/10000. -/
def roundSeconds (q : ℚ) : ℚ := (⌊q * 10000 + 1 / 2⌋ : ℚ) / 10000

/-- Modelled from the spec: `fromDecimalDegrees(value)` decomposes a
decimal-degree value into whole degrees, whole minutes and rational
seconds, with the sign moved into the reference
(`minutes = frac(degrees)*60`, `seconds = frac(minutes)*60`, sections
4.3 and 4.4); the helper is absent from `src/`. -/
def fromDecimalDegrees (v : ℚ) : GpsDMS where
  degrees := (⌊|v|⌋ : ℚ)
  minutes := (⌊(|v| - (⌊|v|⌋ : ℚ)) * 60⌋ : ℚ)
  seconds :=
    roundSeconds (((|v| - (⌊|v|⌋ : ℚ)) * 60 - (⌊(|v| - (⌊|v|⌋ : ℚ)) * 60⌋ : ℚ)) * 60)
  ref := if v < 0 then GpsRef.S else GpsRef.N

/-- The last element of `l` satisfying `q`: a later `d[k] = v` in the
decode loop overwrites an earlier one, so lookups in the finished
dictionary see the last write. -/
def findLast {α : Type} : List α → (α → Bool) → Option α
  | [], _ => none
  | x :: xs, q =>
    match findLast xs q with
    | some y => some y
    | none => if q x then some x else none

/-- Looking a key up after a `d[k] = v` write: the written value at `k`,
the old dictionary's value elsewhere. -/
theorem pyGet_pySet {κ α : Type} [DecidableEq κ] (d : List (κ × α)) (k t : κ) (v : α) :
    pyGet (pySet d k v) t = if k = t then some v else pyGet d t := by
  induction d with
  | nil => simp [pyGet, pySet]
  | cons a d ih =>
    obtain ⟨k0, v0⟩ := a
    by_cases h0 : k0 = k
    · subst h0
      by_cases h1 : k0 = t <;> simp [pyGet, pySet, h1]
    · by_cases h1 : k0 = t
      · subst h1
        have h2 : ¬ k = k0 := fun h => h0 h.symm
        simp [pyGet, pySet, h0, h2]
      · simp [pyGet, pySet, h0, h1, ih]

/-- The keys after a `d[k] = v` write are the old keys plus `k`. -/
theorem mem_keys_pySet {κ α : Type} [DecidableEq κ] (d : List (κ × α)) (k x : κ) (v : α) :
    x ∈ (pySet d k v).map Prod.fst ↔ x ∈ d.map Prod.fst ∨ x = k := by
  induction d with
  | nil => simp [pySet]
  | cons a d ih =>
    obtain ⟨k0, v0⟩ := a
    by_cases h0 : k0 = k <;> simp [pySet, h0, ih] <;> tauto

/-- A `d[k] = v` write keeps the keys of the dictionary without
repetition. -/
theorem keys_nodup_pySet {κ α : Type} [DecidableEq κ] (d : List (κ × α)) (k : κ) (v : α)
    (h : (d.map Prod.fst).Nodup) : ((pySet d k v).map Prod.fst).Nodup := by
  induction d with
  | nil => simp [pySet]
  | cons a d ih =>
    obtain ⟨k0, v0⟩ := a
    simp only [List.map_cons, List.nodup_cons] at h
    by_cases h0 : k0 = k
    · subst h0
      have hset : pySet ((k0, v0) :: d) k0 v = (k0, v) :: d := by simp [pySet]
      rw [hset]
      simp only [List.map_cons, List.nodup_cons]
      exact ⟨h.1, h.2⟩
    · have h1 := ih h.2
      simp only [pySet, if_neg h0, List.map_cons, List.nodup_cons]
      refine ⟨?_, h1⟩
      intro hmem
      rcases (mem_keys_pySet d k k0 v).mp hmem with h2 | h2
      · exact h.1 h2
      · exact h0 h2

/-- In a dictionary whose keys are without repetition, membership of a
binding determines the lookup. -/
theorem pyGet_of_mem {κ α : Type} [DecidableEq κ] (d : List (κ × α)) (k : κ) (v : α)
    (hnd : (d.map Prod.fst).Nodup) (hmem : (k, v) ∈ d) : pyGet d k = some v := by
  induction d with
  | nil => cases hmem
  | cons a d ih =>
    obtain ⟨k0, v0⟩ := a
    simp only [List.map_cons, List.nodup_cons] at hnd
    rcases List.mem_cons.mp hmem with h | h
    · rw [Prod.mk.injEq] at h
      obtain ⟨h1, h2⟩ := h
      subst h1; subst h2
      simp [pyGet]
    · have hk : ¬ k0 = k := by
        intro he
        subst he
        exact hnd.1 (List.mem_map_of_mem Prod.fst h)
      simp only [pyGet, if_neg hk]
      exact ih hnd.2 h

/-- When nothing in the list satisfies the predicate, there is no last
match. -/
theorem findLast_eq_none {α : Type} (q : α → Bool) :
    ∀ l : List α, (∀ x ∈ l, q x = false) → findLast l q = none := by
  intro l
  induction l with
  | nil => intro _; rfl
  | cons x xs ih =>
    intro h
    simp only [findLast]
    rw [ih fun y hy => h y (List.mem_cons_of_mem x hy)]
    simp [h x (List.mem_cons_self x xs)]

/-- Unfolding equation of `findLast` on a nonempty list. -/
theorem findLast_cons {α : Type} (q : α → Bool) (x : α) (xs : List α) :
    findLast (x :: xs) q =
      match findLast xs q with
      | some y => some y
      | none => if q x then some x else none := rfl

/-- The last match in an appended list is the last match of the second
part when one exists, of the first part otherwise. -/
theorem findLast_append {α : Type} (q : α → Bool) (l1 l2 : List α) :
    findLast (l1 ++ l2) q =
      match findLast l2 q with
      | some y => some y
      | none => findLast l1 q := by
  induction l1 with
  | nil =>
    simp only [List.nil_append]
    cases findLast l2 q <;> rfl
  | cons x l1 ih =>
    simp only [List.cons_append, findLast, List.append_eq]
    rw [ih]
    cases h2 : findLast l2 q with
    | some y => rfl
    | none => rfl

/-- Looking up a key in the dictionary built by the decode loop of
`get_exif_data` finds the value of the last directory entry whose
resolved key matches, falling back to the initial dictionary. -/
theorem pyGet_foldl_pySet (tags : List (Nat × String)) (k : ExifKey) :
    ∀ (es : List (Nat × EValue)) (d : List (ExifKey × EValue)),
      pyGet (es.foldl (fun d p => pySet d (tagKey tags p.1) p.2) d) k =
        match findLast es (fun p => decide (tagKey tags p.1 = k)) with
        | some p => some p.2
        | none => pyGet d k := by
  intro es
  induction es with
  | nil => intro d; simp [findLast]
  | cons e es ih =>
    intro d
    simp only [List.foldl_cons, findLast]
    rw [ih]
    cases hf : findLast es (fun p => decide (tagKey tags p.1 = k)) with
    | some p => simp
    | none =>
      simp only []
      rw [pyGet_pySet]
      by_cases h : tagKey tags e.1 = k
      · simp [h]
      · simp [h]

/-- `exifFold` lookup in terms of the last matching directory entry. -/
theorem exifFold_pyGet (tags : List (Nat × String)) (es : List (Nat × EValue)) (k : ExifKey) :
    pyGet (exifFold tags es) k =
      match findLast es (fun p => decide (tagKey tags p.1 = k)) with
      | some p => some p.2
      | none => none := by
  rw [exifFold, pyGet_foldl_pySet]
  cases findLast es (fun p => decide (tagKey tags p.1 = k)) <;> rfl

/-- The decode loop preserves unrepeated keys. -/
theorem keys_nodup_foldl (tags : List (Nat × String)) :
    ∀ (es : List (Nat × EValue)) (d : List (ExifKey × EValue)),
      (d.map Prod.fst).Nodup →
      ((es.foldl (fun d p => pySet d (tagKey tags p.1) p.2) d).map Prod.fst).Nodup := by
  intro es
  induction es with
  | nil => intro d h; simpa using h
  | cons e es ih =>
    intro d h
    simp only [List.foldl_cons]
    exact ih _ (keys_nodup_pySet d _ _ h)

/-- The dictionary `get_exif_data` builds has each key once. -/
theorem exifFold_keys_nodup (tags : List (Nat × String)) (es : List (Nat × EValue)) :
    ((exifFold tags es).map Prod.fst).Nodup :=
  keys_nodup_foldl tags es [] (by simp)

/-- When the predicate singles out exactly one tag id and the entry ids
do not repeat, the last match is the unique entry with that id. -/
theorem findLast_unique_key (q : Nat × EValue → Bool) :
    ∀ (es : List (Nat × EValue)) (t : Nat) (v : EValue),
      (es.map Prod.fst).Nodup → (t, v) ∈ es →
      (∀ p : Nat × EValue, q p = true ↔ p.1 = t) →
      findLast es q = some (t, v) := by
  intro es
  induction es with
  | nil => intro t v _ hmem _; cases hmem
  | cons e es ih =>
    intro t v hnd hmem hq
    simp only [List.map_cons, List.nodup_cons] at hnd
    rcases List.mem_cons.mp hmem with he | he
    · have hnone : findLast es q = none := by
        apply findLast_eq_none
        intro x hx
        by_contra hqx
        have hqt : q x = true := by revert hqx; cases q x <;> simp
        have hx1 : x.1 = t := (hq x).mp hqt
        have hxm : x.1 ∈ es.map Prod.fst := List.mem_map_of_mem Prod.fst hx
        have he1 : e.1 = t := by rw [← he]
        rw [hx1, ← he1] at hxm
        exact hnd.1 hxm
      have hqe : q e = true := by
        rw [← he]
        exact (hq (t, v)).mpr rfl
      simp only [findLast, hnone, hqe, if_pos]
      exact congrArg some he.symm
    · have := ih t v hnd.2 he hq
      simp only [findLast, this]

/-- The head of the tag-id list computed on line 44 really is a
registered binding of the name. -/
theorem idFor_head_mem (tags : List (Nat × String)) (n : String) (k : Nat) (rest : List Nat)
    (h : idFor tags n = k :: rest) : (k, n) ∈ tags := by
  have hk : k ∈ idFor tags n := by
    rw [h]
    exact List.mem_cons_self k rest
  rw [idFor] at hk
  rcases List.mem_map.mp hk with ⟨p, hp, hpk⟩
  rcases List.mem_filter.mp hp with ⟨hmem, hpred⟩
  have h2 : p.2 = n := of_decide_eq_true hpred
  have h3 : p = (k, n) := by
    obtain ⟨a, b⟩ := p
    simp only [Prod.mk.injEq]
    exact ⟨hpk, h2⟩
  rw [← h3]
  exact hmem

/-- A tag id whose registered name is absent from the edit set is never
written by the edit loop of `update_exif_data`. -/
theorem applyEdits_pyGet_of_notin (tags : List (Nat × String))
    (hnd : (tags.map Prod.fst).Nodup) :
    ∀ (ed : List (String × EValue)) (ex : List (Nat × EValue)) (t : Nat),
      (∀ p ∈ ed, pyGet tags t ≠ some p.1) →
      pyGet (applyEdits tags ed ex) t = pyGet ex t := by
  intro ed
  induction ed with
  | nil => intro ex t _; rfl
  | cons e ed ih =>
    intro ex t h
    have hstep :
        pyGet (match idFor tags e.1 with
          | [] => ex
          | k :: _ => pySet ex k e.2) t = pyGet ex t := by
      cases hid : idFor tags e.1 with
      | nil => rfl
      | cons k rest =>
        have hkmem : (k, e.1) ∈ tags := idFor_head_mem tags e.1 k rest hid
        have hkt : ¬ k = t := by
          intro he
          subst he
          exact h e (List.mem_cons_self e ed) (pyGet_of_mem tags k e.1 hnd hkmem)
        simp [pyGet_pySet, hkt]
    have h1 : applyEdits tags (e :: ed) ex =
        applyEdits tags ed (match idFor tags e.1 with
          | [] => ex
          | k :: _ => pySet ex k e.2) := by
      simp [applyEdits]
    rw [h1, ih _ t fun p hp => h p (List.mem_cons_of_mem e hp), hstep]

/-- Claim C1, counterexample: encoding the edit
`{"NotARealField": "x"}` against an image whose directory holds
`Make = "Old"` succeeds and leaves the directory unchanged — the edit is
silently ignored, and no `UnknownTagName` failure is signalled, contrary
to the claim. -/
theorem C1_counterexample :
    update_exif_data (.wellFormed ⟨[1, 2, 3], some [(271, EValue.str "Old")]⟩)
        [("NotARealField", EValue.str "x")]
      = .ok ⟨[1, 2, 3], some [(271, EValue.str "Old")]⟩ := rfl

/-- Claim C1, amended: an edit whose key is a tag name with no
registered numeric id is silently skipped by `update_exif_data` — the
call succeeds and that edit contributes nothing to the result; the code
has no `UnknownTagName` failure. -/
theorem C1_amended (bs : List Nat) (ex : List (Nat × EValue))
    (ed1 ed2 : List (String × EValue)) (n : String) (v : EValue)
    (h : idFor TAGS n = []) :
    update_exif_data (.wellFormed ⟨bs, some ex⟩) (ed1 ++ (n, v) :: ed2)
      = update_exif_data (.wellFormed ⟨bs, some ex⟩) (ed1 ++ ed2) := by
  have happ : applyEdits TAGS (ed1 ++ (n, v) :: ed2) ex
      = applyEdits TAGS (ed1 ++ ed2) ex := by
    simp only [applyEdits, List.foldl_append, List.foldl_cons, h]
  simp only [update_exif_data, update_exif_dataW, imageOpen, getexif, openedBytes, happ]

/-- Witness for the amended claim C1 at the concrete tag name
`NotARealField`. -/
theorem C1_amended_witness :
    idFor TAGS "NotARealField" = [] ∧
    update_exif_data (.wellFormed ⟨[1], some [(271, EValue.str "Old")]⟩)
        ([] ++ ("NotARealField", EValue.str "x") :: [])
      = update_exif_data (.wellFormed ⟨[1], some [(271, EValue.str "Old")]⟩) ([] ++ []) :=
  ⟨rfl, C1_amended [1] [(271, EValue.str "Old")] [] [] "NotARealField"
    (EValue.str "x") rfl⟩

/-- Claim C2, counterexample: encoding `{"FNumber": "not-a-number"}`
against an image whose directory holds a rational F-number succeeds,
storing the raw string — no `InvalidFieldValue` failure is signalled,
contrary to the claim. -/
theorem C2_counterexample :
    update_exif_data (.wellFormed ⟨[9], some [(33437, EValue.rat 28 10)]⟩)
        [("FNumber", EValue.str "not-a-number")]
      = .ok ⟨[9], some [(33437, EValue.str "not-a-number")]⟩ := rfl

/-- Claim C2, amended: encoding a non-numeric string for the numeric
field `FNumber` succeeds, storing the supplied string verbatim under
FNumber's tag id 33437 with no coercion and no `InvalidFieldValue`
failure; the payload bytes pass through unchanged (the input buffer is
never written to). -/
theorem C2_amended (bs : List Nat) (ex : List (Nat × EValue)) (s : String) :
    update_exif_data (.wellFormed ⟨bs, some ex⟩) [("FNumber", EValue.str s)]
      = .ok ⟨bs, some (pySet ex 33437 (EValue.str s))⟩ := rfl

/-- Claim C3: every tag id whose registered name is not a key of the
edit set keeps exactly its original value in the directory produced by
`update_exif_data` — encode never discards or changes untouched tags. -/
theorem C3_untouched_tags (bs : List Nat) (ex : List (Nat × EValue))
    (ed : List (String × EValue)) (t : Nat)
    (h : ∀ p ∈ ed, pyGet TAGS t ≠ some p.1) :
    update_exif_data (.wellFormed ⟨bs, some ex⟩) ed
        = .ok ⟨bs, some (applyEdits TAGS ed ex)⟩ ∧
      pyGet (applyEdits TAGS ed ex) t = pyGet ex t :=
  ⟨rfl, applyEdits_pyGet_of_notin TAGS (by decide) ed ex t h⟩

/-- Witness for claim C3: editing `Make` leaves the `Model` entry
(tag id 272) untouched. -/
theorem C3_witness :
    (∀ p ∈ [("Make", EValue.str "Acme")], pyGet TAGS (272 : Nat) ≠ some p.1) ∧
    pyGet (applyEdits TAGS [("Make", EValue.str "Acme")]
        [(271, EValue.str "OldMake"), (272, EValue.str "X100")]) 272
      = pyGet [((271 : Nat), EValue.str "OldMake"), (272, EValue.str "X100")] 272 :=
  ⟨by decide,
    (C3_untouched_tags [0] [(271, EValue.str "OldMake"), (272, EValue.str "X100")]
      [("Make", EValue.str "Acme")] 272 (by decide)).2⟩

/-- Claim C4: on an image that opens fine but carries no EXIF directory
(`_getexif()` returns `None`), `get_exif_data` returns the empty
dictionary and signals no error. -/
theorem C4_no_exif_empty (bs : List Nat) :
    get_exif_data (.wellFormed ⟨bs, none⟩) = .ok [] := rfl

/-- Claim C5: a directory entry whose numeric tag id is not in the
registry appears in the decoded dictionary under its raw integer key
with its value intact — unrecognized tags are never silently dropped. -/
theorem C5_raw_id_passthrough (bs : List Nat) (es : List (Nat × EValue))
    (t : Nat) (v : EValue)
    (h1 : (es.map Prod.fst).Nodup) (h2 : (t, v) ∈ es)
    (h3 : pyGet TAGS t = none) :
    get_exif_data (.wellFormed ⟨bs, some es⟩) = .ok (exifFold TAGS es) ∧
      pyGet (exifFold TAGS es) (ExifKey.id t) = some v := by
  refine ⟨rfl, ?_⟩
  have hq : ∀ p : Nat × EValue,
      decide (tagKey TAGS p.1 = ExifKey.id t) = true ↔ p.1 = t := by
    intro p
    rw [decide_eq_true_eq]
    constructor
    · intro hp
      rw [tagKey] at hp
      cases hg : pyGet TAGS p.1 with
      | some n => rw [hg] at hp; cases hp
      | none =>
        rw [hg] at hp
        exact ExifKey.id.inj hp
    · intro hp
      rw [tagKey, hp, h3]
  have hfin := findLast_unique_key
    (fun p => decide (tagKey TAGS p.1 = ExifKey.id t)) es t v h1 h2 hq
  rw [exifFold_pyGet, hfin]

/-- Witness for claim C5 at the unregistered tag id 59999. -/
theorem C5_witness :
    ([((59999 : Nat), EValue.int 7)].map Prod.fst).Nodup ∧
    ((59999 : Nat), EValue.int 7) ∈ [((59999 : Nat), EValue.int 7)] ∧
    pyGet TAGS 59999 = none ∧
    pyGet (exifFold TAGS [(59999, EValue.int 7)]) (ExifKey.id 59999)
      = some (EValue.int 7) :=
  ⟨by decide, by decide, by decide,
    (C5_raw_id_passthrough [0] [(59999, EValue.int 7)] 59999 (EValue.int 7)
      (by decide) (by decide) (by decide)).2⟩

/-- Claim C6, counterexample: on an unreadable (non-JPEG) buffer,
`get_exif_data` does not fail — the `Image.open` exception is caught and
the call returns the empty dictionary, contrary to the claim that decode
signals `UnsupportedFormat` and produces no result. -/
theorem C6_counterexample :
    get_exif_data (.unreadable "cannot identify image file") = .ok [] := rfl

/-- Claim C6, amended: on any input rejected by `Image.open`,
`get_exif_data` catches the exception, reports it as a UI message, and
returns an empty directory as a successful result — no
`UnsupportedFormat` error reaches the caller. -/
theorem C6_amended (msg : String) :
    get_exif_dataW TAGS (.unreadable msg) = .ok [] := rfl

/-- Claim C7, counterexample: encoding `{"Make": "Acme"}` against an
image with no EXIF directory succeeds but attaches no directory at all
(`info['exif']` is `None`) — no fresh minimal directory containing the
edit is created, contrary to the claim. -/
theorem C7_counterexample :
    update_exif_data (.wellFormed ⟨[5], none⟩) [("Make", EValue.str "Acme")]
      = .ok ⟨[5], none⟩ := rfl

/-- Claim C7, amended: when `_getexif()` returns `None`, the edit loop
is skipped entirely: `update_exif_data` succeeds, ignores every edit,
and produces an image whose metadata attachment is still `None`. -/
theorem C7_amended (bs : List Nat) (ed : List (String × EValue)) :
    update_exif_dataW TAGS (.wellFormed ⟨bs, none⟩) ed = .ok ⟨bs, none⟩ := rfl

/-- Claim C9: `get_exif_data` never lets an exception escape — for every
input, including unreadable buffers and images whose `_getexif()`
raises, the call returns a dictionary. -/
theorem C9_decode_total (tags : List (Nat × String)) (input : ImageInput) :
    ∃ d, get_exif_dataW tags input = Except.ok d := by
  cases input with
  | unreadable m => exact ⟨[], rfl⟩
  | corrupt b m => exact ⟨[], rfl⟩
  | wellFormed i =>
    obtain ⟨bs, ex⟩ := i
    cases ex with
    | none => exact ⟨[], rfl⟩
    | some es => exact ⟨exifFold tags es, rfl⟩

/-- Claim C10: when two distinct tag ids of the same directory resolve
to the same registry name, the decode loop stores both under that name
in iteration order, so the dictionary keeps only the value of the entry
iterated last; the earlier entry's value is dropped. -/
theorem C10_last_wins (tags : List (Nat × String)) (t1 t2 : Nat) (n : String)
    (v1 v2 : EValue) (l1 l2 l3 : List (Nat × EValue))
    (hne : t1 ≠ t2) (h1 : pyGet tags t1 = some n) (h2 : pyGet tags t2 = some n)
    (h3 : ∀ p ∈ l3, tagKey tags p.1 ≠ ExifKey.name n) :
    pyGet (exifFold tags (l1 ++ (t1, v1) :: (l2 ++ (t2, v2) :: l3)))
        (ExifKey.name n) = some v2 ∧
      (v1 ≠ v2 →
        (ExifKey.name n, v1) ∉
          exifFold tags (l1 ++ (t1, v1) :: (l2 ++ (t2, v2) :: l3))) := by
  have hq3 : findLast l3 (fun p => decide (tagKey tags p.1 = ExifKey.name n))
      = none := by
    apply findLast_eq_none
    intro x hx
    exact decide_eq_false (h3 x hx)
  have hq2 : decide (tagKey tags t2 = ExifKey.name n) = true := by
    rw [decide_eq_true_eq, tagKey, h2]
  have h5 : findLast ((t2, v2) :: l3)
      (fun p => decide (tagKey tags p.1 = ExifKey.name n)) = some (t2, v2) := by
    rw [findLast_cons, hq3]
    simp [hq2]
  have h6 : findLast ((t1, v1) :: (l2 ++ (t2, v2) :: l3))
      (fun p => decide (tagKey tags p.1 = ExifKey.name n)) = some (t2, v2) := by
    rw [findLast_cons, findLast_append, h5]
  have hfin : findLast (l1 ++ (t1, v1) :: (l2 ++ (t2, v2) :: l3))
      (fun p => decide (tagKey tags p.1 = ExifKey.name n)) = some (t2, v2) := by
    rw [findLast_append, h6]
  have hlookup : pyGet (exifFold tags (l1 ++ (t1, v1) :: (l2 ++ (t2, v2) :: l3)))
      (ExifKey.name n) = some v2 := by
    rw [exifFold_pyGet, hfin]
  refine ⟨hlookup, ?_⟩
  intro hv hmem
  have hself := pyGet_of_mem _ _ _ (exifFold_keys_nodup tags _) hmem
  rw [hlookup] at hself
  exact hv (Option.some.inj hself).symm

/-- Witness for claim C10: in a registry where ids 1 and 2 both carry
the name `Dup`, decoding the directory `[(1, 10), (2, 20)]` keeps only
the value 20 under `Dup`. -/
theorem C10_witness :
    (1 : Nat) ≠ 2 ∧
    pyGet [((1 : Nat), "Dup"), (2, "Dup")] 1 = some "Dup" ∧
    pyGet [((1 : Nat), "Dup"), (2, "Dup")] 2 = some "Dup" ∧
    pyGet (exifFold [(1, "Dup"), (2, "Dup")]
        ([] ++ (1, EValue.int 10) :: ([] ++ (2, EValue.int 20) :: [])))
      (ExifKey.name "Dup") = some (EValue.int 20) :=
  ⟨by decide, by decide, by decide,
    (C10_last_wins [(1, "Dup"), (2, "Dup")] 1 2 "Dup" (EValue.int 10)
      (EValue.int 20) [] [] [] (by decide) (by decide) (by decide)
      (by intro p hp; cases hp)).1⟩

/-- Rounding a seconds value to denominator 10000 moves it by at most
half a step. -/
theorem roundSeconds_close (q : ℚ) : |roundSeconds q - q| ≤ 1 / 20000 := by
  have h1 : (⌊q * 10000 + 1 / 2⌋ : ℚ) ≤ q * 10000 + 1 / 2 := Int.floor_le _
  have h2 : q * 10000 + 1 / 2 - 1 < (⌊q * 10000 + 1 / 2⌋ : ℚ) :=
    Int.sub_one_lt_floor _
  rw [roundSeconds, abs_le]
  constructor <;> linarith

/-- Claim C8: for a latitude in the valid range, converting to
degrees/minutes/seconds with `fromDecimalDegrees` and back with
`toDecimalDegrees` reproduces the value to within 1/10000 of a degree. -/
theorem C8_gps_roundtrip (lat : ℚ) (hlo : -90 ≤ lat) (hhi : lat ≤ 90) :
    |toDecimalDegrees (fromDecimalDegrees lat).degrees
        (fromDecimalDegrees lat).minutes (fromDecimalDegrees lat).seconds
        (fromDecimalDegrees lat).ref - lat| ≤ 1 / 10000 := by
  have hkey : (⌊|lat|⌋ : ℚ) + (⌊(|lat| - (⌊|lat|⌋ : ℚ)) * 60⌋ : ℚ) / 60 +
      (((|lat| - (⌊|lat|⌋ : ℚ)) * 60 - (⌊(|lat| - (⌊|lat|⌋ : ℚ)) * 60⌋ : ℚ)) * 60) / 3600
        = |lat| := by
    ring
  have hs := roundSeconds_close
    (((|lat| - (⌊|lat|⌋ : ℚ)) * 60 - (⌊(|lat| - (⌊|lat|⌋ : ℚ)) * 60⌋ : ℚ)) * 60)
  rw [abs_le] at hs
  rcases lt_or_ge lat 0 with hv | hv
  · have ha : |lat| = -lat := abs_of_neg hv
    simp only [fromDecimalDegrees, toDecimalDegrees, if_pos hv]
    rw [abs_le]
    constructor <;> linarith
  · have ha : |lat| = lat := abs_of_nonneg hv
    simp only [fromDecimalDegrees, toDecimalDegrees, if_neg (not_lt.mpr hv)]
    rw [abs_le]
    constructor <;> linarith

/-- Witness for claim C8 at the latitude 48.858333 of the spec's
concrete scenario. -/
theorem C8_witness :
    (-90 : ℚ) ≤ 48858333 / 1000000 ∧ (48858333 / 1000000 : ℚ) ≤ 90 ∧
    |toDecimalDegrees (fromDecimalDegrees (48858333 / 1000000)).degrees
        (fromDecimalDegrees (48858333 / 1000000)).minutes
        (fromDecimalDegrees (48858333 / 1000000)).seconds
        (fromDecimalDegrees (48858333 / 1000000)).ref - 48858333 / 1000000|
      ≤ 1 / 10000 :=
  ⟨by norm_num, by norm_num,
    C8_gps_roundtrip (48858333 / 1000000) (by norm_num) (by norm_num)⟩

end Exo4
